import Mathlib

/-!
Verification of the core of `hass.action_result`: a shallow embedding of

* `custom_components/action_result/utils.py` — `extract_data_at_path`
  (the PathEvaluator of the spec),
* `custom_components/action_result/helpers.py` —
  `detect_value_type_and_suggestions` (the ValueClassifier),
* `custom_components/service_result/config_flow_handler/validators/yaml_validator.py`
  — `validate_service_yaml`, `parse_service_yaml`, `dict_to_yaml`
  (the CallDescriptionNormalizer),
* `custom_components/service_result/config_flow_handler/config_flow.py` —
  `_extract_action_from_selector`,

together with theorems settling the spec's claims about them.

Modeling conventions:

* Python values that flow through these functions are modeled by the
  recursive type `NestedValue` (null / bool / int number / text /
  sequence / mapping).  Python `dict`s are modeled as association lists
  with unique keys; lookup takes the first matching binding.
* Python `None` and the YAML null value are the same object in the
  source; both are `NestedValue.null`.  `extract_data_at_path` returns
  Python `None` both for "not found" and for an explicit null leaf, so
  `NotFound` is represented by `NestedValue.null` exactly as in the code.
* Operations that can raise in Python (`list[index]`, `parts[1]`,
  unbounded loops) are embedded in `Except String`; the embedded code
  returns `.error` exactly where the Python would raise an uncaught
  exception, and theorems show those branches are unreachable.
  `try: int(...) except ValueError` is embedded as the total `pyInt?`
  with the `except` branch taken on `none`.
* Loops are given a fuel parameter so every definition is structurally
  recursive (and therefore kernel-computable).  The loop of
  `extract_data_at_path` consumes at least one character of the path per
  iteration, so fuel `length + 1` never runs out; this is proved, not
  assumed (the out-of-fuel branch returns `.error` and the totality
  theorem excludes it).
-/

/-- The universal value shape (spec §3 `NestedValue`): Python
`None | bool | int | str | list | dict` as produced by `yaml.safe_load`.
Numbers are modeled as integers (no claim depends on floats). -/
inductive NestedValue where
  | null : NestedValue
  | bool (b : Bool) : NestedValue
  | num (n : Int) : NestedValue
  | str (s : String) : NestedValue
  | list (xs : List NestedValue) : NestedValue
  | dict (entries : List (String × NestedValue)) : NestedValue
deriving Repr

/-- Python's `value is None` identity test. -/
def NestedValue.isNull : NestedValue → Bool
  | .null => true
  | _ => false

/-- Python `d.get(k)` restricted to the underlying association list:
the first binding of `k`, if any. -/
def dictLookup : List (String × NestedValue) → String → Option NestedValue
  | [], _ => none
  | (k, v) :: rest, key => if k = key then some v else dictLookup rest key

/-- Python `d.get(k)`: absent keys give `None` (here `.null`). -/
def dictGet (m : List (String × NestedValue)) (key : String) : NestedValue :=
  (dictLookup m key).getD .null

/-- Python `d.get(k, dflt)`. -/
def dictGetD (m : List (String × NestedValue)) (key : String)
    (dflt : NestedValue) : NestedValue :=
  (dictLookup m key).getD dflt

/-- Python `k in d`. -/
def containsKey (m : List (String × NestedValue)) (key : String) : Bool :=
  (dictLookup m key).isSome

/-- Python `d.pop(k)`'s effect on the dict: the binding of `k` is removed.
Keys of a Python dict are unique, so removing every binding of `k`
coincides with removing the single one. -/
def dictRemove (m : List (String × NestedValue)) (key : String) :
    List (String × NestedValue) :=
  m.filter (fun p => p.1 != key)

/-- Python `s.strip()` on the character list of a string. -/
def pyStripChars (cs : List Char) : List Char :=
  ((cs.dropWhile Char.isWhitespace).reverse.dropWhile Char.isWhitespace).reverse

/-- Python `s.strip()`. -/
def pyStrip (s : String) : String :=
  String.mk (pyStripChars s.toList)

/-- Digit tail of a Python integer literal: `digit (\x5f? digit)*`
(Python allows single underscores between digits). Accumulator form. -/
def pyDigitsAux : List Char → Nat → Option Nat
  | [], acc => some acc
  | c :: rest, acc =>
    if c = '_' then
      match rest with
      | c2 :: rest2 =>
          if c2.isDigit then pyDigitsAux rest2 (acc * 10 + (c2.toNat - 48))
          else none
      | [] => none
    else if c.isDigit then pyDigitsAux rest (acc * 10 + (c.toNat - 48))
    else none

/-- Nonempty digit run for Python `int`. -/
def pyNat? : List Char → Option Nat
  | [] => none
  | c :: rest =>
    if c = '_' then none
    else if c.isDigit then pyDigitsAux rest (c.toNat - 48)
    else none

/-- Python `int(s)` for decimal text: optional surrounding whitespace,
optional sign, digits; `none` models a raised `ValueError`. -/
def pyInt? (s : String) : Option Int :=
  match pyStripChars s.toList with
  | '+' :: rest => (pyNat? rest).map (fun n => (n : Int))
  | '-' :: rest => (pyNat? rest).map (fun n => -(n : Int))
  | cs => (pyNat? cs).map (fun n => (n : Int))

/-- Python `lst[index]` with native negative indexing; `.error` models a
raised `IndexError`. -/
def pyListGet (xs : List NestedValue) (index : Int) : Except String NestedValue :=
  let j : Int := if index < 0 then index + xs.length else index
  if 0 ≤ j ∧ j < (xs.length : Int) then
    match xs.get? j.toNat with
    | some v => .ok v
    | none => .error "IndexError"
  else .error "IndexError"

/-- `path.find("]", pos)` + slicing: split the remaining characters at the
first `]`, returning the bracket content and everything after the `]`;
`none` models `find` returning `-1` (no closing bracket). -/
def splitAtRBracket : List Char → Option (List Char × List Char)
  | [] => none
  | c :: rest =>
    if c = ']' then some ([], rest)
    else
      match splitAtRBracket rest with
      | none => none
      | some (content, r) => some (c :: content, r)

/-- The double-quote character. -/
def dquote : Char := '"'

/-- The single-quote character. -/
def squote : Char := Char.ofNat 39

/-- `content.startswith(q) and content.endswith(q)` for `q` a double or
single quote (`yaml_validator` bracket-content test). A single lone quote
character satisfies both `startswith` and `endswith`, as in Python. -/
def isQuoted (cs : List Char) : Bool :=
  match cs.head?, cs.getLast? with
  | some h, some l => (h == dquote && l == dquote) || (h == squote && l == squote)
  | _, _ => false

/-- `content[1:-1]`. -/
def stripQuotes (cs : List Char) : List Char :=
  (cs.drop 1).dropLast

/-- Characters accepted by the bare-token regex `[^.\x5b\x5d]+`. -/
def isTokChar (c : Char) : Bool :=
  c != '.' && c != '[' && c != ']'

/-- The `while pos < len(path)` loop of `extract_data_at_path`
(`utils.py` lines 39–112), one iteration per constructor step, with the
remaining path as an explicit list of characters.  `fuel` is a pure
termination device (see the header comment); the out-of-fuel `.error`
is proved unreachable for fuel `> length`. -/
def evalLoopF : Nat → NestedValue → List Char → Except String NestedValue
  | 0, _, _ => .error "RecursionError"
  | fuel + 1, current, cs =>
    match cs with
    | [] => .ok current
    | c :: rest =>
      if c = '.' then
        -- Skip leading dots
        evalLoopF fuel current rest
      else if c = '[' then
        match splitAtRBracket rest with
        | none =>
          -- Malformed bracket - return None
          .ok .null
        | some (content, rest') =>
          if isQuoted content then
            -- Dictionary key with quotes
            match current with
            | .dict entries =>
              let newCur := dictGet entries (String.mk (stripQuotes content))
              if newCur.isNull then .ok .null else evalLoopF fuel newCur rest'
            | _ => .ok .null
          else
            -- Array index: [0] or [-1]
            match pyInt? (String.mk content) with
            | none => .ok .null
            | some index =>
              match current with
              | .list xs =>
                if -(xs.length : Int) ≤ index ∧ index < (xs.length : Int) then
                  match pyListGet xs index with
                  | .error e => .error e
                  | .ok v => if v.isNull then .ok .null else evalLoopF fuel v rest'
                else .ok .null
              | _ => .ok .null
      else
        -- Handle dot notation: extract key until next . or [
        let tok := (c :: rest).takeWhile isTokChar
        if tok = [] then
          -- regex match failed (next char is a bare close bracket): break
          .ok current
        else
          let rest' := (c :: rest).dropWhile isTokChar
          let key := String.mk tok
          match current with
          | .list xs =>
            match pyInt? key with
            | none => .ok .null
            | some index =>
              if -(xs.length : Int) ≤ index ∧ index < (xs.length : Int) then
                match pyListGet xs index with
                | .error e => .error e
                | .ok v => if v.isNull then .ok .null else evalLoopF fuel v rest'
              else .ok .null
          | .dict entries =>
            let newCur := dictGet entries key
            if newCur.isNull then .ok .null else evalLoopF fuel newCur rest'
          | _ => .ok .null

/-- `extract_data_at_path(data, path)` (`utils.py` lines 9–112).
The result value `NestedValue.null` is Python's `None`, i.e. both
"NotFound" and an explicit null; `.error` would be an uncaught
exception (proved unreachable). -/
def extract_data_at_path (data : NestedValue) (path : Option String) :
    Except String NestedValue :=
  match path with
  | none => .ok data
  | some p =>
    let stripped := pyStripChars p.toList
    if stripped = [] then .ok data
    else evalLoopF (stripped.length + 1) data stripped

/-! ## ValueClassifier (`helpers.py`, lines 169–206) -/

/-- Modelled from the spec: the `VALUE_TYPE_*` constants are imported from
`custom_components/action_result/const.py`, which is not in `src/`; the
spec (§4.3, §3 `ClassificationResult`) names the kinds Boolean, Number,
Timestamp, Text.  Only their pairwise distinctness matters here. -/
def VALUE_TYPE_BOOLEAN : String := "boolean"

/-- Modelled from the spec: see `VALUE_TYPE_BOOLEAN`. -/
def VALUE_TYPE_NUMBER : String := "number"

/-- Modelled from the spec: see `VALUE_TYPE_BOOLEAN`. -/
def VALUE_TYPE_STRING : String := "string"

/-- Modelled from the spec: see `VALUE_TYPE_BOOLEAN`. -/
def VALUE_TYPE_TIMESTAMP : String := "timestamp"

/-- The suggestions dictionary built by `detect_value_type_and_suggestions`:
keys `value_type`, `unit_of_measurement`, `device_class`. -/
structure Suggestions where
  value_type : String
  unit_of_measurement : String
  device_class : String
deriving Repr, DecidableEq

/-- `re.match` against the ISO 8601 pattern
`^\d{4}-\d{2}-\d{2}[T ]\d{2}:\d{2}:\d{2}` — anchored at the start only,
arbitrary trailing characters allowed. -/
def isoTimestampMatch : List Char → Bool
  | y1 :: y2 :: y3 :: y4 :: c1 :: mo1 :: mo2 :: c2 :: d1 :: d2 :: sep ::
      h1 :: h2 :: c3 :: mi1 :: mi2 :: c4 :: s1 :: s2 :: _ =>
      y1.isDigit && y2.isDigit && y3.isDigit && y4.isDigit && c1 == '-' &&
      mo1.isDigit && mo2.isDigit && c2 == '-' && d1.isDigit && d2.isDigit &&
      (sep == 'T' || sep == ' ') &&
      h1.isDigit && h2.isDigit && c3 == ':' && mi1.isDigit && mi2.isDigit &&
      c4 == ':' && s1.isDigit && s2.isDigit
  | _ => false

/-- `detect_value_type_and_suggestions(value)` (`helpers.py` lines 169–206).
The cascade of `isinstance` checks, in source order: `None`, `bool`,
`int | float`, `str` (with the ISO-8601 probe), then the catch-all.
The Python mutation of a defaults dict is modeled by building the final
record of each branch directly. -/
def detect_value_type_and_suggestions (value : NestedValue) : Suggestions :=
  match value with
  | .null => ⟨VALUE_TYPE_STRING, "", ""⟩
  | .bool _ => ⟨VALUE_TYPE_BOOLEAN, "", ""⟩
  | .num _ => ⟨VALUE_TYPE_NUMBER, "", ""⟩
  | .str s =>
      if isoTimestampMatch s.toList then ⟨VALUE_TYPE_TIMESTAMP, "", "timestamp"⟩
      else ⟨VALUE_TYPE_STRING, "", ""⟩
  | _ => ⟨VALUE_TYPE_STRING, "", ""⟩

/-! ## CallDescriptionNormalizer (`yaml_validator.py`)

`yaml.safe_load` / `yaml.dump` are the semi-structured-format
collaborator of spec §6 and are not part of this repository; the
repository's own functions are therefore parameterized by a
deserializer `load` (returning `Except Unit NestedValue`, `.error`
modeling a raised `yaml.YAMLError`) and a serializer `dump`.
Concrete instances (`miniLoad`, `miniDump`) modelled from the spec are
given further below for witnesses and counterexamples. -/

/-- Python truthiness (`if not x`, `x or y`) on a `NestedValue`:
`None`, `False`, `0`, empty text, empty sequence and empty mapping are
falsy. -/
def pyTruthy : NestedValue → Bool
  | .null => false
  | .bool b => b
  | .num n => n != 0
  | .str s => !s.isEmpty
  | .list xs => !xs.isEmpty
  | .dict m => !m.isEmpty

/-- Python `a or b` over values obtained from `dict.get` (absent = `None`
= `.null`): the left operand if truthy, otherwise the right one. -/
def pyOrElse (a b : NestedValue) : NestedValue :=
  if pyTruthy a then a else b

/-- The 4-tuple returned by `parse_service_yaml`:
`(cleaned_data_dict, action, entry_id, error_key)`.  `action` and
`entry_id` carry the raw value from the document (Python `None`, i.e.
`.null`, when absent). -/
structure ParsedServiceYaml where
  cleaned_data : Option (List (String × NestedValue))
  action : NestedValue
  entry_id : NestedValue
  error_key : Option String
deriving Repr

/-- `validate_service_yaml(yaml_string)` (`yaml_validator.py` lines 10–32),
parameterized by the deserializer. -/
def validate_service_yaml (load : String → Except Unit NestedValue)
    (yaml_string : String) : Bool × Option String :=
  if pyStripChars yaml_string.toList = [] then (true, none)
  else
    match load yaml_string with
    | .error _ => (false, some "yaml_parse_error")
    | .ok parsed =>
      match parsed with
      | .null => (true, none)
      | .dict _ => (true, none)
      | _ => (false, some "yaml_not_dict")

/-- `parse_service_yaml(yaml_string)` (`yaml_validator.py` lines 35–103),
parameterized by the deserializer. -/
def parse_service_yaml (load : String → Except Unit NestedValue)
    (yaml_string : String) : ParsedServiceYaml :=
  if pyStripChars yaml_string.toList = [] then ⟨some [], .null, .null, none⟩
  else
    match load yaml_string with
    | .error _ => ⟨none, .null, .null, some "yaml_parse_error"⟩
    | .ok parsed =>
      match parsed with
      | .null => ⟨some [], .null, .null, none⟩
      | .dict m =>
        -- Check if this looks like full Developer Tools YAML
        if containsKey m "action" || containsKey m "service" then
          -- Extract action (prefer "action" over "service" for modern syntax)
          let action := pyOrElse (dictGet m "action") (dictGet m "service")
          -- Extract data section
          match dictGetD m "data" (.dict []) with
          | .dict ds =>
            if containsKey ds "entry_id" then
              ⟨some (dictRemove ds "entry_id"), action, dictGet ds "entry_id", none⟩
            else ⟨some ds, action, .null, none⟩
          | _ =>
            -- data section is not a dict
            ⟨none, action, .null, some "yaml_not_dict"⟩
        else
          -- This is just plain service data
          if containsKey m "entry_id" then
            ⟨some (dictRemove m "entry_id"), .null, dictGet m "entry_id", none⟩
          else ⟨some m, .null, .null, none⟩
      | _ => ⟨none, .null, .null, some "yaml_not_dict"⟩

/-- `dict_to_yaml(data)` (`yaml_validator.py` lines 106–118),
parameterized by the serializer (`yaml.dump` with block style). -/
def dict_to_yaml (dump : List (String × NestedValue) → String)
    (data : List (String × NestedValue)) : String :=
  if data.isEmpty then "" else pyStrip (dump data)

/-! ## Action-identifier splitting (`config_flow.py` lines 81–102) -/

/-- `action.split(".", 1)` on the character list: the part before the
first `.` and everything after it; the input is only split when a dot
is present (call sites guard with `"." in action`). -/
def splitFirstDot : List Char → List Char × List Char
  | [] => ([], [])
  | c :: rest =>
    if c = '.' then ([], rest)
    else
      let p := splitFirstDot rest
      (c :: p.1, p.2)

/-- Python `"." in action` for an arbitrary value: substring test on
text, membership on sequences, key membership on mappings; `.error`
models the `TypeError` raised on other types. -/
def pyContainsDot : NestedValue → Except String Bool
  | .str s => .ok (s.toList.contains '.')
  | .list xs => .ok (xs.any (fun v => match v with | .str t => t = "." | _ => false))
  | .dict m => .ok (containsKey m ".")
  | .null => .error "TypeError"
  | .bool _ => .error "TypeError"
  | .num _ => .error "TypeError"

/-- Python `action.split(".", 1)` followed by `parts[0], parts[1]`:
only text has `split` (`.error` models `AttributeError` otherwise), and
`parts[1]` would raise `IndexError` when no dot is present — both are
unreachable behind the `"." in action` guard. -/
def pySplitAction : NestedValue → Except String (String × String)
  | .str s =>
    if s.toList.contains '.' then
      .ok (String.mk (splitFirstDot s.toList).1, String.mk (splitFirstDot s.toList).2)
    else .error "IndexError"
  | _ => .error "AttributeError"

/-- `_extract_action_from_selector(action_data)` (`config_flow.py`
lines 81–102).  `Option` input: Python `dict | None`; `.ok none` is the
function's `return None`. -/
def extract_action_from_selector
    (action_data : Option (List (String × NestedValue))) :
    Except String (Option (String × String)) :=
  match action_data with
  | none => .ok none
  | some m =>
    if !pyTruthy (.dict m) then .ok none
    else
      let action := dictGetD m "action" (.str "")
      if !pyTruthy action then .ok none
      else
        match pyContainsDot action with
        | .error e => .error e
        | .ok hasDot =>
          if !hasDot then .ok none
          else
            match pySplitAction action with
            | .error e => .error e
            | .ok p => .ok (some p)

/-! ## A concrete semi-structured-format collaborator

Modelled from the spec: §6 requires a deserializer/serializer pair that
rejects malformed input distinguishably from "parsed to a non-mapping"
and round-trips the `NestedValue` subset.  `yaml.safe_load` / `yaml.dump`
themselves are third-party code outside `src/`; the concrete instances
below implement the fragment of YAML exercised by the witnesses and
counterexamples in this file: block-style mappings of plain scalars with
at most one nesting level (two-space indent), plain-scalar documents, and
the null document.  Flow-style values (starting with a bracket or brace)
are treated as malformed — the only flow-style document used in this
file, `"a: [1, 2"`, is malformed in real YAML as well.  Scalars: `null`,
`~`, empty → null; `true` / `false` → booleans; optionally signed
decimal integers without leading zeros → numbers; anything else →
verbatim text. -/

/-- Split a character list into lines at newline characters. -/
def splitLines : List Char → List (List Char)
  | [] => [[]]
  | c :: rest =>
    if c = '\n' then [] :: splitLines rest
    else
      match splitLines rest with
      | [] => [[c]]
      | l :: ls => (c :: l) :: ls

/-- A line consisting only of whitespace. -/
def isBlankLine (l : List Char) : Bool := l.all Char.isWhitespace

/-- A line starting with the two-space nesting indent. -/
def isIndented (l : List Char) : Bool :=
  match l with
  | ' ' :: ' ' :: _ => true
  | _ => false

/-- Integer literal of the modeled YAML subset: optional `-`, decimal
digits, no leading zero (multi-digit literals with a leading zero are
octal in YAML 1.1 and excluded from the subset). -/
def yamlIntLit? (cs : List Char) : Option Int :=
  let core := fun (ds : List Char) =>
    match ds with
    | [] => none
    | [d] => if d.isDigit then pyNat? [d] else none
    | d :: _ =>
      if d.isDigit && d != '0' && ds.all Char.isDigit then pyNat? ds else none
  match cs with
  | '-' :: rest => (core rest).map (fun n => -(n : Int))
  | _ => (core cs).map (fun n => (n : Int))

/-- Scalar of the modeled YAML subset. -/
def miniScalar (v : List Char) : Except Unit NestedValue :=
  let v := pyStripChars v
  if v = [] then .ok .null
  else if v = ['~'] then .ok .null
  else if v = "null".toList then .ok .null
  else if v = "true".toList then .ok (.bool true)
  else if v = "false".toList then .ok (.bool false)
  else if v.head? = some '[' || v.head? = some (Char.ofNat 123) then .error ()
  else
    match yamlIntLit? v with
    | some n => .ok (.num n)
    | none => .ok (.str (String.mk v))

/-- Split a mapping line at the first `:` that is followed by a space or
ends the line, as YAML does; `none` when the line has no such colon. -/
def splitColon : List Char → Option (List Char × List Char)
  | [] => none
  | c :: rest =>
    if c = ':' then
      match rest with
      | [] => some ([], [])
      | c2 :: rest2 =>
        if c2 = ' ' then some ([], rest2)
        else (splitColon rest).map (fun p => (c :: p.1, p.2))
    else (splitColon rest).map (fun p => (c :: p.1, p.2))

/-- Entries of a nested block: each line must be `"  key: scalar"`. -/
def miniNestedEntries : List (List Char) → Except Unit (List (String × NestedValue))
  | [] => .ok []
  | l :: rest =>
    match l with
    | ' ' :: ' ' :: body =>
      match splitColon body with
      | none => .error ()
      | some (k, v) =>
        match miniScalar v with
        | .error e => .error e
        | .ok val =>
          (miniNestedEntries rest).map
            (fun m => (String.mk (pyStripChars k), val) :: m)
    | _ => .error ()

/-- Top-level mapping lines; the fuel bounds the number of lines
consumed (the function is only ever evaluated on concrete documents). -/
def miniTopEntries : Nat → List (List Char) → Except Unit (List (String × NestedValue))
  | 0, _ => .error ()
  | _, [] => .ok []
  | fuel + 1, l :: rest =>
    if isBlankLine l then miniTopEntries fuel rest
    else if isIndented l then .error ()
    else
      match splitColon l with
      | none => .error ()
      | some (k, v) =>
        let key := String.mk (pyStripChars k)
        if pyStripChars v ≠ [] then
          match miniScalar v with
          | .error e => .error e
          | .ok val => (miniTopEntries fuel rest).map (fun m => (key, val) :: m)
        else
          let nested := rest.takeWhile (fun l2 => isIndented l2 || isBlankLine l2)
          let remaining := rest.dropWhile (fun l2 => isIndented l2 || isBlankLine l2)
          let nestedContent := nested.filter (fun l2 => !isBlankLine l2)
          if nestedContent.isEmpty then
            (miniTopEntries fuel remaining).map (fun m => (key, .null) :: m)
          else
            match miniNestedEntries nestedContent with
            | .error e => .error e
            | .ok entries =>
              (miniTopEntries fuel remaining).map
                (fun m => (key, .dict entries) :: m)

/-- The modeled deserializer (`yaml.safe_load` collaborator). -/
def miniLoad (s : String) : Except Unit NestedValue :=
  let cs := s.toList
  if pyStripChars cs = [] then .ok .null
  else
    let lines := splitLines cs
    match lines.filter (fun l => !isBlankLine l) with
    | [l] =>
      if (splitColon l).isSome || isIndented l then
        (miniTopEntries (lines.length + 1) lines).map .dict
      else miniScalar l
    | _ => (miniTopEntries (lines.length + 1) lines).map .dict

/-- Scalar serialization of the modeled subset (`yaml.dump` of a plain
scalar, without the trailing document markers). -/
def miniDumpScalar : NestedValue → String
  | .null => "null"
  | .bool true => "true"
  | .bool false => "false"
  | .num n => toString n
  | .str s => s
  | .list _ => ""
  | .dict _ => ""

/-- Insertion into a key-sorted association list (`yaml.dump` sorts keys). -/
def insertByKey (p : String × NestedValue) :
    List (String × NestedValue) → List (String × NestedValue)
  | [] => [p]
  | q :: rest => if p.1 ≤ q.1 then p :: q :: rest else q :: insertByKey p rest

/-- Key-sorted copy of a mapping. -/
def sortByKey (m : List (String × NestedValue)) : List (String × NestedValue) :=
  m.foldr insertByKey []

/-- The modeled serializer (`yaml.dump(data, default_flow_style=False)`
collaborator): one `key: scalar` line per entry, keys sorted, trailing
newline. -/
def miniDump (m : List (String × NestedValue)) : String :=
  String.intercalate "\n"
    ((sortByKey m).map (fun p => p.1 ++ ": " ++ miniDumpScalar p.2)) ++ "\n"

/-- Indent every line of a block by two spaces (the "proper indentation"
used when nesting a serialized mapping under a `data:` key). -/
def indentBlock (s : String) : String :=
  String.intercalate "\n" ((splitLines s.toList).map (fun l => String.mk (' ' :: ' ' :: l)))

/-! ## Supporting lemmas -/

theorem containsKey_false_iff (m : List (String × NestedValue)) (k : String) :
    containsKey m k = false ↔ dictLookup m k = none := by
  cases h : dictLookup m k <;> simp [containsKey, h]

theorem dictLookup_dictRemove (m : List (String × NestedValue)) (k : String) :
    dictLookup (dictRemove m k) k = none := by
  induction m with
  | nil => rfl
  | cons p rest ih =>
    by_cases h : p.1 = k
    · simpa [dictRemove, dictLookup, h] using ih
    · simpa [dictRemove, dictLookup, h] using ih

theorem dictRemove_of_lookup_none (m : List (String × NestedValue)) (k : String)
    (h : dictLookup m k = none) : dictRemove m k = m := by
  induction m with
  | nil => rfl
  | cons p rest ih =>
    obtain ⟨k1, v1⟩ := p
    by_cases hp : k1 = k
    · simp [dictLookup, hp] at h
    · simp only [dictLookup, if_neg hp] at h
      have hr := ih h
      simp only [dictRemove] at hr ⊢
      rw [List.filter_cons]
      have hbne : ((k1, v1).1 != k) = true := by simp [hp]
      rw [hbne]
      simp [hr]

theorem dictGet_of_lookup_none (m : List (String × NestedValue)) (k : String)
    (h : dictLookup m k = none) : dictGet m k = .null := by
  simp [dictGet, h]

theorem splitAtRBracket_length :
    ∀ (cs content r : List Char), splitAtRBracket cs = some (content, r) →
      r.length < cs.length := by
  intro cs
  induction cs with
  | nil => intro content r h; simp [splitAtRBracket] at h
  | cons c rest ih =>
    intro content r h
    by_cases hc : c = ']'
    · simp only [splitAtRBracket, if_pos hc, Option.some.injEq, Prod.mk.injEq] at h
      obtain ⟨h1, h2⟩ := h
      subst h2
      simp
    · simp only [splitAtRBracket, if_neg hc] at h
      cases hs : splitAtRBracket rest with
      | none => rw [hs] at h; simp at h
      | some p =>
        obtain ⟨content2, r2⟩ := p
        rw [hs] at h
        simp only [Option.some.injEq, Prod.mk.injEq] at h
        obtain ⟨h1, h2⟩ := h
        have := ih content2 r2 hs
        rw [← h2]
        simp only [List.length_cons]
        omega

theorem pyListGet_ok (xs : List NestedValue) (index : Int)
    (h1 : -(xs.length : Int) ≤ index) (h2 : index < (xs.length : Int)) :
    ∃ v, pyListGet xs index = .ok v := by
  unfold pyListGet
  by_cases hneg : index < 0
  · have hj : (0:Int) ≤ index + xs.length ∧ index + xs.length < (xs.length : Int) := by
      omega
    simp only [if_pos hneg, if_pos hj]
    cases hg : xs.get? (index + xs.length).toNat with
    | none =>
      rw [List.get?_eq_none] at hg
      omega
    | some v => exact ⟨v, rfl⟩
  · have hj : (0:Int) ≤ index ∧ index < (xs.length : Int) := by omega
    simp only [if_neg hneg, if_pos hj]
    cases hg : xs.get? index.toNat with
    | none =>
      rw [List.get?_eq_none] at hg
      omega
    | some v => exact ⟨v, rfl⟩

theorem takeWhile_dropWhile_length (p : Char → Bool) (cs : List Char) :
    (cs.takeWhile p).length + (cs.dropWhile p).length = cs.length := by
  conv_rhs => rw [← List.takeWhile_append_dropWhile (p := p) (l := cs)]
  rw [List.length_append]

theorem evalLoopF_total :
    ∀ (fuel : Nat) (current : NestedValue) (cs : List Char),
      cs.length < fuel → ∃ v, evalLoopF fuel current cs = .ok v := by
  intro fuel
  induction fuel with
  | zero => intro current cs h; omega
  | succ n ih =>
    intro current cs h
    cases cs with
    | nil => exact ⟨current, rfl⟩
    | cons c rest =>
      have hrest : rest.length < n := by
        simp only [List.length_cons] at h; omega
      simp only [evalLoopF]
      by_cases hdot : c = '.'
      · rw [if_pos hdot]
        exact ih current rest hrest
      · rw [if_neg hdot]
        by_cases hbr : c = '['
        · rw [if_pos hbr]
          cases hs : splitAtRBracket rest with
          | none => exact ⟨.null, rfl⟩
          | some p =>
            obtain ⟨content, rest'⟩ := p
            have hlen : rest'.length < n :=
              lt_trans (splitAtRBracket_length rest content rest' hs) hrest
            try dsimp only
            by_cases hq : isQuoted content
            · rw [if_pos hq]
              cases current with
              | dict entries =>
                try dsimp only
                by_cases hz :
                    (dictGet entries (String.mk (stripQuotes content))).isNull
                · rw [if_pos hz]; exact ⟨.null, rfl⟩
                · rw [if_neg hz]; exact ih _ rest' hlen
              | null => exact ⟨.null, rfl⟩
              | bool b => exact ⟨.null, rfl⟩
              | num x => exact ⟨.null, rfl⟩
              | str s => exact ⟨.null, rfl⟩
              | list xs => exact ⟨.null, rfl⟩
            · rw [if_neg hq]
              cases hi : pyInt? (String.mk content) with
              | none => exact ⟨.null, rfl⟩
              | some index =>
                cases current with
                | list xs =>
                  try dsimp only
                  by_cases hb :
                      -(xs.length : Int) ≤ index ∧ index < (xs.length : Int)
                  · rw [if_pos hb]
                    obtain ⟨v, hv⟩ := pyListGet_ok xs index hb.1 hb.2
                    rw [hv]
                    try dsimp only
                    by_cases hz : v.isNull
                    · rw [if_pos hz]; exact ⟨.null, rfl⟩
                    · rw [if_neg hz]; exact ih v rest' hlen
                  · rw [if_neg hb]; exact ⟨.null, rfl⟩
                | null => exact ⟨.null, rfl⟩
                | bool b => exact ⟨.null, rfl⟩
                | num x => exact ⟨.null, rfl⟩
                | str s => exact ⟨.null, rfl⟩
                | dict entries => exact ⟨.null, rfl⟩
        · rw [if_neg hbr]
          try dsimp only
          by_cases htok : (c :: rest).takeWhile isTokChar = []
          · rw [if_pos htok]; exact ⟨current, rfl⟩
          · rw [if_neg htok]
            have hlen : ((c :: rest).dropWhile isTokChar).length < n := by
              have hsum := takeWhile_dropWhile_length isTokChar (c :: rest)
              have hpos : 0 < ((c :: rest).takeWhile isTokChar).length :=
                List.length_pos.mpr htok
              simp only [List.length_cons] at hsum
              omega
            cases current with
            | list xs =>
              cases hi : pyInt? (String.mk ((c :: rest).takeWhile isTokChar)) with
              | none => exact ⟨.null, rfl⟩
              | some index =>
                try dsimp only
                by_cases hb :
                    -(xs.length : Int) ≤ index ∧ index < (xs.length : Int)
                · rw [if_pos hb]
                  obtain ⟨v, hv⟩ := pyListGet_ok xs index hb.1 hb.2
                  rw [hv]
                  try dsimp only
                  by_cases hz : v.isNull
                  · rw [if_pos hz]; exact ⟨.null, rfl⟩
                  · rw [if_neg hz]; exact ih v _ hlen
                · rw [if_neg hb]; exact ⟨.null, rfl⟩
            | dict entries =>
              try dsimp only
              by_cases hz :
                  (dictGet entries (String.mk ((c :: rest).takeWhile isTokChar))).isNull
              · rw [if_pos hz]; exact ⟨.null, rfl⟩
              · rw [if_neg hz]; exact ih _ _ hlen
            | null => exact ⟨.null, rfl⟩
            | bool b => exact ⟨.null, rfl⟩
            | num x => exact ⟨.null, rfl⟩
            | str s => exact ⟨.null, rfl⟩

theorem evalLoopF_null_sink :
    ∀ (fuel : Nat) (cs : List Char), cs.length < fuel →
      evalLoopF fuel .null cs = .ok .null := by
  intro fuel
  induction fuel with
  | zero => intro cs h; omega
  | succ n ih =>
    intro cs h
    cases cs with
    | nil => rfl
    | cons c rest =>
      have hrest : rest.length < n := by
        simp only [List.length_cons] at h; omega
      simp only [evalLoopF]
      by_cases hdot : c = '.'
      · rw [if_pos hdot]
        exact ih rest hrest
      · rw [if_neg hdot]
        by_cases hbr : c = '['
        · rw [if_pos hbr]
          cases hs : splitAtRBracket rest with
          | none => rfl
          | some p =>
            obtain ⟨content, rest'⟩ := p
            try dsimp only
            by_cases hq : isQuoted content
            · rw [if_pos hq]
            · rw [if_neg hq]
              cases hi : pyInt? (String.mk content) with
              | none => rfl
              | some index => rfl
        · rw [if_neg hbr]
          by_cases htok : (c :: rest).takeWhile isTokChar = []
          · rw [if_pos htok]
          · rw [if_neg htok]

/-! ## Claims about the PathEvaluator and the ValueClassifier -/

/-- C5: for every mapping `m` with the text key `"0"` bound to `x`,
`extract_data_at_path(m, '["0"]')` returns `x` — quoted bracket content
is always a mapping key, never an index — while
`extract_data_at_path(m, "[0]")` returns NotFound (Python `None`,
i.e. `.null`), because unquoted bracket content is a sequence index
valid only against a sequence. -/
theorem quoted_key_never_index (m : List (String × NestedValue)) (x : NestedValue)
    (h : dictLookup m "0" = some x) :
    extract_data_at_path (.dict m) (some "[\"0\"]") = .ok x ∧
    extract_data_at_path (.dict m) (some "[0]") = .ok .null := by
  constructor
  · have h1 : extract_data_at_path (.dict m) (some "[\"0\"]")
        = (if (dictGet m "0").isNull then Except.ok .null
           else evalLoopF 5 (dictGet m "0") []) := rfl
    have hget : dictGet m "0" = x := by simp [dictGet, h]
    rw [h1, hget]
    by_cases hz : x.isNull
    · have hx : x = .null := by
        cases x <;> simp [NestedValue.isNull] at hz ⊢
      rw [if_pos hz, hx]
    · rw [if_neg hz]
      rfl
  · rfl

/-- C5 witness: the concrete instance `{"0": 7}`. -/
theorem quoted_key_never_index_witness :
    extract_data_at_path (.dict [("0", .num 7)]) (some "[\"0\"]") = .ok (.num 7) ∧
    extract_data_at_path (.dict [("0", .num 7)]) (some "[0]") = .ok .null :=
  quoted_key_never_index [("0", .num 7)] (.num 7) rfl

/-- C6: the null short-circuit.  (1) As soon as a traversal step yields
the null value, evaluation stops and returns NotFound (`.null`), whatever
the remaining path is; (2) a null current value is a sink: every path
evaluates to NotFound from it (in particular a final step yielding null
is reported as NotFound, indistinguishable from an unresolved path, since
Python returns `None` for both); (3) the spec's concrete case: from
`{"a": null}` the path `"a.b"` returns NotFound. -/
theorem null_short_circuit :
    (∀ (m : List (String × NestedValue)) (ks : List Char) (fuel : Nat),
        dictGet m "a" = .null →
        evalLoopF (fuel + 1) (.dict m) ('a' :: '.' :: ks) = .ok .null) ∧
    (∀ p : Option String, extract_data_at_path .null p = .ok .null) ∧
    extract_data_at_path (.dict [("a", .null)]) (some "a.b") = .ok .null := by
  refine ⟨?_, ?_, rfl⟩
  · intro m ks fuel h
    have h1 : evalLoopF (fuel + 1) (.dict m) ('a' :: '.' :: ks)
        = (if (dictGet m "a").isNull then Except.ok .null
           else evalLoopF fuel (dictGet m "a") ('.' :: ks)) := rfl
    rw [h1, h]
    rfl
  · intro p
    cases p with
    | none => rfl
    | some s =>
      simp only [extract_data_at_path]
      by_cases hs : pyStripChars s.toList = []
      · rw [if_pos hs]
      · rw [if_neg hs]
        exact evalLoopF_null_sink _ _ (Nat.lt_succ_self _)

/-- C6 witness: concrete instances for all three conjuncts. -/
theorem null_short_circuit_witness :
    evalLoopF (2 + 1) (.dict [("a", .null)]) ['a', '.', 'b'] = .ok .null ∧
    extract_data_at_path .null (some "x[0]") = .ok .null ∧
    extract_data_at_path (.dict [("a", .null)]) (some "a.b") = .ok .null :=
  ⟨null_short_circuit.1 [("a", .null)] ['b'] 2 rfl,
   null_short_circuit.2.1 (some "x[0]"),
   null_short_circuit.2.2⟩

/-- C8: every boolean classifies as Boolean with no unit or device-class
hints, and never as Number: the `isinstance(value, bool)` check precedes
the numeric check in `detect_value_type_and_suggestions`, and the two
kind tags are distinct. -/
theorem classifier_boolean_precedence (b : Bool) :
    detect_value_type_and_suggestions (.bool b) = ⟨VALUE_TYPE_BOOLEAN, "", ""⟩ ∧
    (detect_value_type_and_suggestions (.bool b)).value_type ≠ VALUE_TYPE_NUMBER := by
  refine ⟨rfl, ?_⟩
  simp [detect_value_type_and_suggestions, VALUE_TYPE_BOOLEAN, VALUE_TYPE_NUMBER]

/-- C9: totality.  The evaluator returns `.ok` on every data value and
every path (no uncaught `IndexError`, no non-termination: the embedded
`.error` branches are unreachable), and the classifier always yields one
of the four kind tags (with the Text tag as the catch-all fallback). -/
theorem evaluator_and_classifier_total :
    (∀ (data : NestedValue) (path : Option String),
        ∃ v, extract_data_at_path data path = .ok v) ∧
    (∀ value : NestedValue,
        (detect_value_type_and_suggestions value).value_type = VALUE_TYPE_BOOLEAN ∨
        (detect_value_type_and_suggestions value).value_type = VALUE_TYPE_NUMBER ∨
        (detect_value_type_and_suggestions value).value_type = VALUE_TYPE_TIMESTAMP ∨
        (detect_value_type_and_suggestions value).value_type = VALUE_TYPE_STRING) := by
  constructor
  · intro data path
    cases path with
    | none => exact ⟨data, rfl⟩
    | some s =>
      simp only [extract_data_at_path]
      by_cases hs : pyStripChars s.toList = []
      · rw [if_pos hs]; exact ⟨data, rfl⟩
      · rw [if_neg hs]
        exact evalLoopF_total _ data _ (Nat.lt_succ_self _)
  · intro value
    cases value with
    | str s =>
      by_cases h : isoTimestampMatch s.toList <;>
        simp only [String.toList] at h <;>
        simp [detect_value_type_and_suggestions, h]
    | null => simp [detect_value_type_and_suggestions]
    | bool b => simp [detect_value_type_and_suggestions]
    | num n => simp [detect_value_type_and_suggestions]
    | list xs => simp [detect_value_type_and_suggestions]
    | dict m => simp [detect_value_type_and_suggestions]

theorem string_mk_toList (s : String) : String.mk s.toList = s := rfl

theorem parse_full_form (load : String → Except Unit NestedValue) (s : String)
    (m ds : List (String × NestedValue))
    (h1 : pyStripChars s.toList ≠ [])
    (h2 : load s = .ok (.dict m))
    (h3 : (containsKey m "action" || containsKey m "service") = true)
    (h4 : dictGetD m "data" (.dict []) = .dict ds) :
    parse_service_yaml load s =
      ⟨some (dictRemove ds "entry_id"),
       pyOrElse (dictGet m "action") (dictGet m "service"),
       dictGet ds "entry_id", none⟩ := by
  rw [parse_service_yaml, if_neg h1, h2]
  try dsimp only
  rw [h3, if_pos (rfl : (true : Bool) = true)]
  try dsimp only
  rw [h4]
  try dsimp only
  by_cases he : containsKey ds "entry_id"
  · rw [if_pos he]
  · rw [if_neg he]
    rw [Bool.not_eq_true] at he
    have hl := (containsKey_false_iff ds "entry_id").mp he
    rw [dictRemove_of_lookup_none ds "entry_id" hl,
      dictGet_of_lookup_none ds "entry_id" hl]

theorem parse_bare_form (load : String → Except Unit NestedValue) (s : String)
    (m : List (String × NestedValue))
    (h1 : pyStripChars s.toList ≠ [])
    (h2 : load s = .ok (.dict m))
    (h3 : containsKey m "action" = false)
    (h4 : containsKey m "service" = false) :
    parse_service_yaml load s =
      ⟨some (dictRemove m "entry_id"), .null, dictGet m "entry_id", none⟩ := by
  rw [parse_service_yaml, if_neg h1, h2]
  try dsimp only
  rw [h3, h4, if_neg (by simp : ¬((false || false) = true))]
  try dsimp only
  by_cases he : containsKey m "entry_id"
  · rw [if_pos he]
  · rw [if_neg he]
    rw [Bool.not_eq_true] at he
    have hl := (containsKey_false_iff m "entry_id").mp he
    rw [dictRemove_of_lookup_none m "entry_id" hl,
      dictGet_of_lookup_none m "entry_id" hl]

theorem parse_full_form_bad_data (load : String → Except Unit NestedValue)
    (s : String) (m : List (String × NestedValue))
    (h1 : pyStripChars s.toList ≠ [])
    (h2 : load s = .ok (.dict m))
    (h3 : (containsKey m "action" || containsKey m "service") = true)
    (h4 : ∀ ds, dictGetD m "data" (.dict []) ≠ .dict ds) :
    parse_service_yaml load s =
      ⟨none, pyOrElse (dictGet m "action") (dictGet m "service"),
       .null, some "yaml_not_dict"⟩ := by
  rw [parse_service_yaml, if_neg h1, h2]
  try dsimp only
  rw [h3, if_pos (rfl : (true : Bool) = true)]
  try dsimp only
  cases hd : dictGetD m "data" (.dict []) with
  | dict ds => exact absurd hd (h4 ds)
  | null => rfl
  | bool b => rfl
  | num n => rfl
  | str t => rfl
  | list xs => rfl

theorem parse_full_action (load : String → Except Unit NestedValue) (s : String)
    (m : List (String × NestedValue))
    (h1 : pyStripChars s.toList ≠ [])
    (h2 : load s = .ok (.dict m))
    (h3 : (containsKey m "action" || containsKey m "service") = true) :
    (parse_service_yaml load s).action =
      pyOrElse (dictGet m "action") (dictGet m "service") := by
  cases hd : dictGetD m "data" (.dict []) with
  | dict ds => rw [parse_full_form load s m ds h1 h2 h3 hd]
  | null =>
    rw [parse_full_form_bad_data load s m h1 h2 h3 (by intro ds; rw [hd]; simp)]
  | bool b =>
    rw [parse_full_form_bad_data load s m h1 h2 h3 (by intro ds; rw [hd]; simp)]
  | num n =>
    rw [parse_full_form_bad_data load s m h1 h2 h3 (by intro ds; rw [hd]; simp)]
  | str t =>
    rw [parse_full_form_bad_data load s m h1 h2 h3 (by intro ds; rw [hd]; simp)]
  | list xs =>
    rw [parse_full_form_bad_data load s m h1 h2 h3 (by intro ds; rw [hd]; simp)]

/-! ## Claims about the CallDescriptionNormalizer -/

/-- C3: the parse error taxonomy of `parse_service_yaml`, for an
arbitrary deserializer: (1) empty or whitespace-only input gives the
empty call description with no error; (2) so does input deserializing
to null; (3) a deserialization failure gives the error key
`yaml_parse_error`; (4) a non-mapping (and non-null) deserialization
result gives the error key `yaml_not_dict`. -/
theorem parse_error_taxonomy :
    (∀ (load : String → Except Unit NestedValue) (s : String),
        pyStripChars s.toList = [] →
        parse_service_yaml load s = ⟨some [], .null, .null, none⟩) ∧
    (∀ (load : String → Except Unit NestedValue) (s : String),
        pyStripChars s.toList ≠ [] → load s = .ok .null →
        parse_service_yaml load s = ⟨some [], .null, .null, none⟩) ∧
    (∀ (load : String → Except Unit NestedValue) (s : String) (e : Unit),
        pyStripChars s.toList ≠ [] → load s = .error e →
        parse_service_yaml load s = ⟨none, .null, .null, some "yaml_parse_error"⟩) ∧
    (∀ (load : String → Except Unit NestedValue) (s : String) (v : NestedValue),
        pyStripChars s.toList ≠ [] → load s = .ok v → v ≠ .null →
        (∀ m, v ≠ .dict m) →
        parse_service_yaml load s = ⟨none, .null, .null, some "yaml_not_dict"⟩) := by
  refine ⟨?_, ?_, ?_, ?_⟩
  · intro load s h
    rw [parse_service_yaml, if_pos h]
  · intro load s h1 h2
    rw [parse_service_yaml, if_neg h1, h2]
  · intro load s e h1 h2
    rw [parse_service_yaml, if_neg h1, h2]
  · intro load s v h1 h2 h3 h4
    rw [parse_service_yaml, if_neg h1, h2]
    cases v with
    | null => exact absurd rfl h3
    | dict m => exact absurd rfl (h4 m)
    | bool b => rfl
    | num n => rfl
    | str t => rfl
    | list xs => rfl

/-- C3 witness: each taxonomy case at a concrete document, with the
modeled collaborator. -/
theorem parse_error_taxonomy_witness :
    parse_service_yaml miniLoad "  " = ⟨some [], .null, .null, none⟩ ∧
    parse_service_yaml miniLoad "null" = ⟨some [], .null, .null, none⟩ ∧
    parse_service_yaml miniLoad "a: [1, 2" =
      ⟨none, .null, .null, some "yaml_parse_error"⟩ ∧
    parse_service_yaml miniLoad "5" =
      ⟨none, .null, .null, some "yaml_not_dict"⟩ :=
  ⟨parse_error_taxonomy.1 miniLoad "  " rfl,
   parse_error_taxonomy.2.1 miniLoad "null" (by decide) rfl,
   parse_error_taxonomy.2.2.1 miniLoad "a: [1, 2" () (by decide) rfl,
   parse_error_taxonomy.2.2.2 miniLoad "5" (.num 5) (by decide) rfl
     (by simp) (by intro m; simp)⟩

/-- C4 (amended): whenever `parse_service_yaml` succeeds, the returned
argument data never contains the reserved key `entry_id`; in both forms
the reserved key is removed from the candidate data and its raw value
(not a text coercion) is returned in the `entry_id` slot (`.null` when
absent). -/
theorem reserved_key_invariant :
    (∀ (load : String → Except Unit NestedValue) (s : String)
        (c : List (String × NestedValue)),
        (parse_service_yaml load s).cleaned_data = some c →
        dictLookup c "entry_id" = none) ∧
    (∀ (load : String → Except Unit NestedValue) (s : String)
        (m : List (String × NestedValue)),
        pyStripChars s.toList ≠ [] → load s = .ok (.dict m) →
        containsKey m "action" = false → containsKey m "service" = false →
        parse_service_yaml load s =
          ⟨some (dictRemove m "entry_id"), .null, dictGet m "entry_id", none⟩) ∧
    (∀ (load : String → Except Unit NestedValue) (s : String)
        (m ds : List (String × NestedValue)),
        pyStripChars s.toList ≠ [] → load s = .ok (.dict m) →
        (containsKey m "action" || containsKey m "service") = true →
        dictGetD m "data" (.dict []) = .dict ds →
        parse_service_yaml load s =
          ⟨some (dictRemove ds "entry_id"),
           pyOrElse (dictGet m "action") (dictGet m "service"),
           dictGet ds "entry_id", none⟩) := by
  refine ⟨?_, parse_bare_form, parse_full_form⟩
  intro load s c h
  by_cases h1 : pyStripChars s.toList = []
  · rw [parse_service_yaml, if_pos h1] at h
    simp only [Option.some.injEq] at h
    rw [← h]
    rfl
  · cases hl : load s with
    | error e =>
      rw [parse_service_yaml, if_neg h1, hl] at h
      simp at h
    | ok v =>
      cases v with
      | null =>
        rw [parse_service_yaml, if_neg h1, hl] at h
        simp only [Option.some.injEq] at h
        rw [← h]
        rfl
      | dict m =>
        by_cases h3 : (containsKey m "action" || containsKey m "service") = true
        · cases hd : dictGetD m "data" (.dict []) with
          | dict ds =>
            rw [parse_full_form load s m ds h1 hl h3 hd] at h
            simp only [Option.some.injEq] at h
            rw [← h]
            exact dictLookup_dictRemove ds "entry_id"
          | null =>
            rw [parse_full_form_bad_data load s m h1 hl h3
              (by intro ds; rw [hd]; simp)] at h
            simp at h
          | bool b =>
            rw [parse_full_form_bad_data load s m h1 hl h3
              (by intro ds; rw [hd]; simp)] at h
            simp at h
          | num n =>
            rw [parse_full_form_bad_data load s m h1 hl h3
              (by intro ds; rw [hd]; simp)] at h
            simp at h
          | str t =>
            rw [parse_full_form_bad_data load s m h1 hl h3
              (by intro ds; rw [hd]; simp)] at h
            simp at h
          | list xs =>
            rw [parse_full_form_bad_data load s m h1 hl h3
              (by intro ds; rw [hd]; simp)] at h
            simp at h
        · rw [Bool.or_eq_true, not_or, Bool.not_eq_true, Bool.not_eq_true] at h3
          rw [parse_bare_form load s m h1 hl h3.1 h3.2] at h
          simp only [Option.some.injEq] at h
          rw [← h]
          exact dictLookup_dictRemove m "entry_id"
      | bool b =>
        rw [parse_service_yaml, if_neg h1, hl] at h
        simp at h
      | num n =>
        rw [parse_service_yaml, if_neg h1, hl] at h
        simp at h
      | str t =>
        rw [parse_service_yaml, if_neg h1, hl] at h
        simp at h
      | list xs =>
        rw [parse_service_yaml, if_neg h1, hl] at h
        simp at h

/-- C4 counterexample: the claim's "coerced to text" fails — for the
bare-data document `"entry_id: 123"` the code returns the raw number
`123` in the `entry_id` slot, not the text `"123"` (the reserved key is
still stripped from the argument data). -/
theorem reserved_key_counterexample :
    parse_service_yaml miniLoad "entry_id: 123" =
      ⟨some [], .null, .num 123, none⟩ ∧
    NestedValue.num 123 ≠ NestedValue.str "123" :=
  ⟨rfl, by simp⟩

/-- C4 witness: all three conjuncts at concrete documents. -/
theorem reserved_key_invariant_witness :
    dictLookup [("x", NestedValue.num 1)] "entry_id" = none ∧
    parse_service_yaml miniLoad "entry_id: abc" =
      ⟨some [], .null, .str "abc", none⟩ ∧
    parse_service_yaml miniLoad
        "action: dom.svc\ndata:\n  entry_id: abc\n  level: true" =
      ⟨some [("level", .bool true)], .str "dom.svc", .str "abc", none⟩ :=
  ⟨reserved_key_invariant.1 miniLoad "x: 1" [("x", .num 1)] rfl,
   reserved_key_invariant.2.1 miniLoad "entry_id: abc"
     [("entry_id", .str "abc")] (by decide) rfl rfl rfl,
   reserved_key_invariant.2.2 miniLoad
     "action: dom.svc\ndata:\n  entry_id: abc\n  level: true"
     [("action", .str "dom.svc"),
      ("data", .dict [("entry_id", .str "abc"), ("level", .bool true)])]
     [("entry_id", .str "abc"), ("level", .bool true)] (by decide) rfl rfl rfl⟩

/-- C7 (amended): in full-document form the `action` key is preferred
over `service` only when the value of `action` is truthy; a falsy
`action` value (null, empty text, ...) falls back to the value of
`service`, because the source computes
`parsed.get("action") or parsed.get("service")`. -/
theorem action_preference :
    (∀ (load : String → Except Unit NestedValue) (s : String)
        (m : List (String × NestedValue)),
        pyStripChars s.toList ≠ [] → load s = .ok (.dict m) →
        containsKey m "action" = true → containsKey m "service" = true →
        pyTruthy (dictGet m "action") = true →
        (parse_service_yaml load s).action = dictGet m "action") ∧
    (∀ (load : String → Except Unit NestedValue) (s : String)
        (m : List (String × NestedValue)),
        pyStripChars s.toList ≠ [] → load s = .ok (.dict m) →
        containsKey m "action" = true → containsKey m "service" = true →
        pyTruthy (dictGet m "action") = false →
        (parse_service_yaml load s).action = dictGet m "service") := by
  constructor
  · intro load s m h1 h2 ha hs htr
    have h3 : (containsKey m "action" || containsKey m "service") = true := by
      simp [ha]
    rw [parse_full_action load s m h1 h2 h3]
    simp [pyOrElse, htr]
  · intro load s m h1 h2 ha hs htr
    have h3 : (containsKey m "action" || containsKey m "service") = true := by
      simp [ha]
    rw [parse_full_action load s m h1 h2 h3]
    simp [pyOrElse, htr]

/-- C7 counterexample: for the document `"action:\nservice: a.b"` both
keys are present, yet the returned actionId is the value of `service`
(`"a.b"`), not the (null) value of `action` — refuting the claim that
the value of `action` is always returned when both keys are present. -/
theorem action_preference_counterexample :
    miniLoad "action:\nservice: a.b" =
      .ok (.dict [("action", .null), ("service", .str "a.b")]) ∧
    dictGet [("action", NestedValue.null), ("service", NestedValue.str "a.b")]
      "action" = .null ∧
    (parse_service_yaml miniLoad "action:\nservice: a.b").action = .str "a.b" ∧
    NestedValue.str "a.b" ≠ NestedValue.null :=
  ⟨rfl, rfl, rfl, by simp⟩

/-- C7 witness: both conjuncts at concrete documents. -/
theorem action_preference_witness :
    (parse_service_yaml miniLoad "action: x.y\nservice: z.w").action =
      .str "x.y" ∧
    (parse_service_yaml miniLoad "action:\nservice: a.b").action =
      .str "a.b" :=
  ⟨action_preference.1 miniLoad "action: x.y\nservice: z.w"
     [("action", .str "x.y"), ("service", .str "z.w")] (by decide) rfl rfl rfl rfl,
   action_preference.2 miniLoad "action:\nservice: a.b"
     [("action", .null), ("service", .str "a.b")] (by decide) rfl rfl rfl rfl⟩

/-- C10 (amended): (1) whenever `parse_service_yaml` reports no error,
`validate_service_yaml` accepts; (2) whenever the validator reports an
error, the parser reports the same error key; (3) on inputs the
validator accepts, the parser either also succeeds or fails only with
`yaml_not_dict` (a full-document form whose `data` section is present
and not a mapping — a case the validator does not inspect). -/
theorem validator_parser_agreement :
    (∀ (load : String → Except Unit NestedValue) (s : String),
        (parse_service_yaml load s).error_key = none →
        validate_service_yaml load s = (true, none)) ∧
    (∀ (load : String → Except Unit NestedValue) (s : String) (k : String),
        validate_service_yaml load s = (false, some k) →
        (parse_service_yaml load s).error_key = some k) ∧
    (∀ (load : String → Except Unit NestedValue) (s : String),
        validate_service_yaml load s = (true, none) →
        (parse_service_yaml load s).error_key = none ∨
        (parse_service_yaml load s).error_key = some "yaml_not_dict") := by
  refine ⟨?_, ?_, ?_⟩
  · intro load s h
    by_cases h1 : pyStripChars s.toList = []
    · rw [validate_service_yaml, if_pos h1]
    · rw [validate_service_yaml, if_neg h1]
      cases hl : load s with
      | error e =>
        rw [parse_service_yaml, if_neg h1, hl] at h
        simp at h
      | ok v =>
        cases v with
        | null => rfl
        | dict m => rfl
        | bool b =>
          rw [parse_service_yaml, if_neg h1, hl] at h
          simp at h
        | num n =>
          rw [parse_service_yaml, if_neg h1, hl] at h
          simp at h
        | str t =>
          rw [parse_service_yaml, if_neg h1, hl] at h
          simp at h
        | list xs =>
          rw [parse_service_yaml, if_neg h1, hl] at h
          simp at h
  · intro load s k h
    by_cases h1 : pyStripChars s.toList = []
    · rw [validate_service_yaml, if_pos h1] at h
      simp at h
    · rw [validate_service_yaml, if_neg h1] at h
      cases hl : load s with
      | error e =>
        rw [hl] at h
        simp only [Prod.mk.injEq, Option.some.injEq] at h
        rw [parse_service_yaml, if_neg h1, hl, ← h.2]
      | ok v =>
        rw [hl] at h
        cases v with
        | null => simp at h
        | dict m => simp at h
        | bool b =>
          simp only [Prod.mk.injEq, Option.some.injEq] at h
          rw [parse_service_yaml, if_neg h1, hl, ← h.2]
        | num n =>
          simp only [Prod.mk.injEq, Option.some.injEq] at h
          rw [parse_service_yaml, if_neg h1, hl, ← h.2]
        | str t =>
          simp only [Prod.mk.injEq, Option.some.injEq] at h
          rw [parse_service_yaml, if_neg h1, hl, ← h.2]
        | list xs =>
          simp only [Prod.mk.injEq, Option.some.injEq] at h
          rw [parse_service_yaml, if_neg h1, hl, ← h.2]
  · intro load s h
    by_cases h1 : pyStripChars s.toList = []
    · left
      rw [parse_service_yaml, if_pos h1]
    · cases hl : load s with
      | error e =>
        rw [validate_service_yaml, if_neg h1, hl] at h
        simp at h
      | ok v =>
        cases v with
        | null =>
          left
          rw [parse_service_yaml, if_neg h1, hl]
        | dict m =>
          by_cases h3 : (containsKey m "action" || containsKey m "service") = true
          · cases hd : dictGetD m "data" (.dict []) with
            | dict ds =>
              left
              rw [parse_full_form load s m ds h1 hl h3 hd]
            | null =>
              right
              rw [parse_full_form_bad_data load s m h1 hl h3
                (by intro ds; rw [hd]; simp)]
            | bool b =>
              right
              rw [parse_full_form_bad_data load s m h1 hl h3
                (by intro ds; rw [hd]; simp)]
            | num n =>
              right
              rw [parse_full_form_bad_data load s m h1 hl h3
                (by intro ds; rw [hd]; simp)]
            | str t =>
              right
              rw [parse_full_form_bad_data load s m h1 hl h3
                (by intro ds; rw [hd]; simp)]
            | list xs =>
              right
              rw [parse_full_form_bad_data load s m h1 hl h3
                (by intro ds; rw [hd]; simp)]
          · left
            rw [Bool.or_eq_true, not_or, Bool.not_eq_true, Bool.not_eq_true] at h3
            rw [parse_bare_form load s m h1 hl h3.1 h3.2]
        | bool b =>
          rw [validate_service_yaml, if_neg h1, hl] at h
          simp at h
        | num n =>
          rw [validate_service_yaml, if_neg h1, hl] at h
          simp at h
        | str t =>
          rw [validate_service_yaml, if_neg h1, hl] at h
          simp at h
        | list xs =>
          rw [validate_service_yaml, if_neg h1, hl] at h
          simp at h

/-- C10 counterexample: the document `"action: a\ndata: 5"` is accepted
by the validator but rejected by the parser (its `data` section is not a
mapping), refuting the claimed equivalence. -/
theorem validator_parser_agreement_counterexample :
    validate_service_yaml miniLoad "action: a\ndata: 5" = (true, none) ∧
    (parse_service_yaml miniLoad "action: a\ndata: 5").error_key =
      some "yaml_not_dict" :=
  ⟨rfl, rfl⟩

/-- C10 witness: all three conjuncts at concrete documents. -/
theorem validator_parser_agreement_witness :
    validate_service_yaml miniLoad "x: 1" = (true, none) ∧
    (parse_service_yaml miniLoad "a: [1, 2").error_key =
      some "yaml_parse_error" ∧
    ((parse_service_yaml miniLoad "level: true").error_key = none ∨
      (parse_service_yaml miniLoad "level: true").error_key =
        some "yaml_not_dict") :=
  ⟨validator_parser_agreement.1 miniLoad "x: 1" rfl,
   validator_parser_agreement.2.1 miniLoad "a: [1, 2" "yaml_parse_error" rfl,
   validator_parser_agreement.2.2 miniLoad "level: true" rfl⟩

/-- The claim's document construction: the serialized arguments wrapped
under a top-level `data:` key with two-space indentation. -/
def wrapDataOnly (body : String) : String :=
  "data:\n" ++ indentBlock body

/-- The full-document wrapping: an `action:` line followed by the
`data:` key with the indented serialized arguments. -/
def wrapFullDoc (a : String) (body : String) : String :=
  "action: " ++ a ++ "\ndata:\n" ++ indentBlock body

/-- C1 counterexample: wrapping `serializeArguments(d)` under a
top-level `data:` key alone does **not** round-trip.  For
`d = {"level": true}` the wrapped document contains neither `action`
nor `service`, so `parse_service_yaml` takes the bare-data branch and
returns `{"data": {"level": true}}` as the argument data — not `d`. -/
theorem roundtrip_counterexample :
    wrapDataOnly (dict_to_yaml miniDump [("level", .bool true)]) =
      "data:\n  level: true" ∧
    parse_service_yaml miniLoad
        (wrapDataOnly (dict_to_yaml miniDump [("level", .bool true)])) =
      ⟨some [("data", .dict [("level", .bool true)])], .null, .null, none⟩ ∧
    (some [("data", NestedValue.dict [("level", NestedValue.bool true)])] ≠
      some [("level", NestedValue.bool true)]) :=
  ⟨rfl, rfl, by simp⟩

/-- C1 (amended): the round-trip law holds for the full-document
wrapping.  For every mapping `d` without the reserved key `entry_id`,
if the collaborator deserializes the document
`"action: " ++ a ++ "\ndata:\n" ++ indented(serializeArguments(d))`
to the corresponding mapping (the collaborator round-trip contract of
spec §6), then `parse_service_yaml` returns argument data structurally
equal to `d`, with no error.  (Wrapping under `data:` alone lands in
the bare-data branch and yields `{"data": d}` instead — see the
counterexample.) -/
theorem roundtrip_full_document (load : String → Except Unit NestedValue)
    (dump : List (String × NestedValue) → String)
    (a : String) (d : List (String × NestedValue))
    (h0 : dictLookup d "entry_id" = none)
    (h1 : pyStripChars (wrapFullDoc a (dict_to_yaml dump d)).toList ≠ [])
    (h2 : load (wrapFullDoc a (dict_to_yaml dump d)) =
        .ok (.dict [("action", .str a), ("data", .dict d)])) :
    (parse_service_yaml load (wrapFullDoc a (dict_to_yaml dump d))).cleaned_data
      = some d ∧
    (parse_service_yaml load (wrapFullDoc a (dict_to_yaml dump d))).error_key
      = none := by
  have h3 : (containsKey [("action", NestedValue.str a),
      ("data", NestedValue.dict d)] "action" ||
      containsKey [("action", NestedValue.str a),
      ("data", NestedValue.dict d)] "service") = true := rfl
  have h4 : dictGetD [("action", NestedValue.str a),
      ("data", NestedValue.dict d)] "data" (.dict []) = .dict d := rfl
  rw [parse_full_form load (wrapFullDoc a (dict_to_yaml dump d)) _ d h1 h2 h3 h4,
    dictRemove_of_lookup_none d "entry_id" h0]
  exact ⟨rfl, rfl⟩

/-- C1 witness: the amended round-trip at `d = {"level": true}` with the
modeled collaborator: the document
`"action: dom.svc\ndata:\n  level: true"` parses back to `d`. -/
theorem roundtrip_full_document_witness :
    (parse_service_yaml miniLoad
        (wrapFullDoc "dom.svc" (dict_to_yaml miniDump [("level", .bool true)]))).cleaned_data
      = some [("level", .bool true)] ∧
    (parse_service_yaml miniLoad
        (wrapFullDoc "dom.svc" (dict_to_yaml miniDump [("level", .bool true)]))).error_key
      = none :=
  roundtrip_full_document miniLoad miniDump "dom.svc" [("level", .bool true)]
    rfl (by decide) rfl

theorem toList_append (a b : String) : (a ++ b).toList = a.toList ++ b.toList := by
  simp [String.toList, String.data_append]

theorem splitFirstDot_append (a b : List Char) (h : '.' ∉ a) :
    splitFirstDot (a ++ '.' :: b) = (a, b) := by
  induction a with
  | nil => simp [splitFirstDot]
  | cons c rest ih =>
    have hc : c ≠ '.' := by
      intro hc
      exact h (by simp [hc])
    have hrest : '.' ∉ rest := fun hm => h (List.mem_cons_of_mem c hm)
    simp [splitFirstDot, hc, ih hrest]

/-- C2 (amended): `_extract_action_from_selector` splits the action text
on the first `.` only, and returns `None` when the selector data is
absent or the action text is empty or has no dot; but it does **not**
reject an empty domain or name part (see the counterexample). -/
theorem action_identifier_splitting :
    (∀ (a b : String), '.' ∉ a.toList →
        extract_action_from_selector (some [("action", .str (a ++ "." ++ b))]) =
          .ok (some (a, b))) ∧
    (∀ s : String, '.' ∉ s.toList →
        extract_action_from_selector (some [("action", .str s)]) = .ok none) ∧
    extract_action_from_selector none = .ok none := by
  refine ⟨?_, ?_, rfl⟩
  · intro a b hnd
    have htl : (a ++ "." ++ b).toList = a.toList ++ '.' :: b.toList := by
      simp [toList_append]
    have hne : (a ++ "." ++ b).isEmpty = false := by
      rw [Bool.eq_false_iff]
      intro he
      rw [String.isEmpty_iff] at he
      rw [he] at htl
      simp at htl
    have hct : (a ++ "." ++ b).toList.contains '.' = true := by
      rw [htl]
      simp [List.contains, List.elem_iff]
    have e1 : extract_action_from_selector
        (some [("action", .str (a ++ "." ++ b))]) =
        (if !pyTruthy (.str (a ++ "." ++ b)) then Except.ok none
         else
           match pyContainsDot (.str (a ++ "." ++ b)) with
           | .error e => .error e
           | .ok hasDot =>
             if !hasDot then Except.ok none
             else
               match pySplitAction (.str (a ++ "." ++ b)) with
               | .error e => .error e
               | .ok p => Except.ok (some p)) := rfl
    rw [e1]
    have htr : (!pyTruthy (.str (a ++ "." ++ b))) = false := by
      simp [pyTruthy, hne]
    rw [htr]
    simp only [Bool.false_eq_true, if_false]
    rw [show pyContainsDot (.str (a ++ "." ++ b)) =
        .ok ((a ++ "." ++ b).toList.contains '.') from rfl, hct]
    simp only []
    rw [show pySplitAction (.str (a ++ "." ++ b)) =
        (if (a ++ "." ++ b).toList.contains '.' then
          Except.ok (String.mk (splitFirstDot (a ++ "." ++ b).toList).1,
            String.mk (splitFirstDot (a ++ "." ++ b).toList).2)
         else Except.error "IndexError") from rfl, hct]
    rw [htl, splitFirstDot_append a.toList b.toList hnd]
    simp [string_mk_toList]
  · intro s hnd
    by_cases hs : s = ""
    · subst hs
      rfl
    · have hne : s.isEmpty = false := by
        rw [Bool.eq_false_iff]
        intro he
        exact hs ((String.isEmpty_iff s).mp he)
      have hct : s.toList.contains '.' = false := by
        rw [Bool.eq_false_iff]
        intro hc
        simp [List.contains, List.elem_iff] at hc
        exact hnd hc
      have e1 : extract_action_from_selector (some [("action", .str s)]) =
          (if !pyTruthy (.str s) then Except.ok none
           else
             match pyContainsDot (.str s) with
             | .error e => .error e
             | .ok hasDot =>
               if !hasDot then Except.ok none
               else
                 match pySplitAction (.str s) with
                 | .error e => .error e
                 | .ok p => Except.ok (some p)) := rfl
      rw [e1]
      have htr : (!pyTruthy (.str s)) = false := by
        simp [pyTruthy, hne]
      rw [htr]
      simp only [Bool.false_eq_true, if_false]
      rw [show pyContainsDot (.str s) = .ok (s.toList.contains '.') from rfl, hct]
      simp

/-- C2 counterexample: `".svc"` and `"dom."` are split and returned,
with an empty domain (resp. name) part, instead of the `None` the claim
requires. -/
theorem action_identifier_splitting_counterexample :
    extract_action_from_selector (some [("action", .str ".svc")]) =
      .ok (some ("", "svc")) ∧
    extract_action_from_selector (some [("action", .str "dom.")]) =
      .ok (some ("dom", "")) ∧
    (some (("" : String), ("svc" : String)) ≠
      (none : Option (String × String))) :=
  ⟨rfl, rfl, by simp⟩

/-- C2 witness: concrete instances for all three conjuncts. -/
theorem action_identifier_splitting_witness :
    extract_action_from_selector (some [("action", .str "dom.svc.x")]) =
      .ok (some ("dom", "svc.x")) ∧
    extract_action_from_selector (some [("action", .str "nodot")]) = .ok none ∧
    extract_action_from_selector none = .ok none :=
  ⟨action_identifier_splitting.1 "dom" "svc.x" (by decide),
   action_identifier_splitting.2.1 "nodot" (by decide),
   action_identifier_splitting.2.2⟩
